import Mathlib

/-!
Verification of the telliot price-index tracker (`pkg/tracker/index/index.go`
and the tsdb setup in `cmd/telliot/cmds.go`) against its natural-language
specification.  Go durations are modelled as `Int` nanosecond counts,
`time.Time` values as `Int` with `0` standing for the zero time, float64
prices and volumes as `Rat`, and the wall clock as a sequence
`clock : Nat → Int` consumed one read per `time.Now()` call.
-/

namespace Telliot

/-- Go errors: either a fresh error message (`errors.New`) or a wrap of an
inner error (`errors.Wrap` / `errors.Wrapf` with a non-nil argument). -/
inductive GoError where
  | msg (s : String)
  | wrap (s : String) (e : GoError)
deriving DecidableEq, Repr

/-- Model of `errors.Wrap`/`errors.Wrapf` from `github.com/pkg/errors`: wrapping a nil
error returns nil, otherwise it wraps. -/
def errorsWrap (e : Option GoError) (s : String) : Option GoError :=
  match e with
  | none => none
  | some e => some (.wrap s e)

/-- The `index.Config` structure (log level omitted; durations are nanoseconds). -/
structure Config where
  Interval : Int
  FetchTimeout : Int
  ApiFile : String
  ManualDataFile : String
deriving DecidableEq, Repr

/-- The `IndexType` constant `httpSource`. -/
def httpSource : String := "http"
/-- The `IndexType` constant `ethereumSource`. -/
def ethereumSource : String := "ethereum"
/-- The `IndexType` constant `manualSource`. -/
def manualSource : String := "manualData"

/-- The `ParserType` constant `jsonPathParser` (also the value of `fileParser`). -/
def jsonPathParser : String := "jsonPath"
/-- The `ParserType` constant `uniswapParser`. -/
def uniswapParser : String := "Uniswap"
/-- The `ParserType` constant `balancerParser`. -/
def balancerParser : String := "Balancer"

/-- The `Api` catalog descriptor (`URL`, `type`, `parser`, `param`,
`interval`); the interval is in nanoseconds as in `util.Duration`. -/
structure Api where
  URL : String
  «Type» : String
  Parser : String
  Param : String
  Interval : Int
deriving DecidableEq, Repr

/-- The closed set of `Parser` interface implementations that `NewParser`
can return: only `JsonPathParser{param}`. -/
inductive Parser where
  | jsonPath (param : String)
deriving DecidableEq, Repr

/-- Function `NewParser`: returns a `JsonPathParser` for the `jsonPath` parser name and
the nil interface value (`none`) for every other name. -/
def NewParser (t : Api) : Option Parser :=
  if t.Parser = jsonPathParser then some (.jsonPath t.Param) else none

/-- The closed set of `DataSource` implementations built by
`createDataSources`: `JSONapi`, `JSONfile`, `Uniswap`, `Balancer`
(loggers and the chain client handle omitted). -/
inductive DataSource where
  | jsonApi (interval retryDelay : Int) (url : String) (p : Option Parser)
  | jsonFile (filepath : String) (p : Option Parser)
  | uniswap (symbol address : String) (interval : Int)
  | balancer (symbol address : String) (interval : Int)
deriving DecidableEq, Repr

/-- Method `DataSource.Interval()`: `JSONapi` returns its stored interval and
`JSONfile` returns `0`.  The `Uniswap`/`Balancer` implementations are not
under `src/`; modelled from the spec: every variant implements
`Interval() → duration` and the on-chain sources are constructed with the
descriptor interval, which they report. -/
def DataSource.interval : DataSource → Int
  | .jsonApi i _ _ _ => i
  | .jsonFile _ _ => 0
  | .uniswap _ _ i => i
  | .balancer _ _ i => i

/-- Method `DataSource.Source()`: `JSONapi` reports its URL and `JSONfile` its file
path.  The `Uniswap`/`Balancer` implementations are not under `src/`;
modelled from the spec: the canonical id of an on-chain source is its
resolved contract address. -/
def DataSource.source : DataSource → String
  | .jsonApi _ _ url _ => url
  | .jsonFile fp _ => fp
  | .uniswap _ addr _ => addr
  | .balancer _ addr _ => addr

/-- The descriptor-normalization steps of the `createDataSources` loop body
(`index.go:116-134`): expand environment references in the URL, default an
empty type to `http`, overwrite a *non-zero* interval with the configured
default (the code tests `!= 0` at `index.go:127`), and default an empty
parser to `jsonPath`.  `expand` is `os.Expand` composed with the process
environment, which is external to this file's sources. -/
def normalizeApi (cfg : Config) (expand : String → String) (api0 : Api) : Api :=
  let api1 := { api0 with URL := expand api0.URL }
  let api2 := if api1.«Type» = "" then { api1 with «Type» := httpSource } else api1
  let api3 := if api2.Interval ≠ 0 then { api2 with Interval := cfg.Interval } else api2
  if api3.Parser = "" then { api3 with Parser := jsonPathParser } else api3

/-- The per-descriptor body of the `createDataSources` loop
(`index.go:115-170`): normalize the descriptor, then dispatch on its type
(`index.go:135-167`).  `networkID` is the result of `client.NetworkID` and
`getAddressForNetwork` stands for `ethereum.GetAddressForNetwork`, both
external to this file's sources.  The result models Go's
`(DataSource, error)` pair; note the `ethereum` branch with an unknown
parser wraps the at-that-point nil `err`, so it produces `(none, none)`. -/
def processApi (cfg : Config) (expand : String → String)
    (networkID : Except GoError Int)
    (getAddressForNetwork : String → Int → Except GoError String)
    (symbol : String) (api0 : Api) : Option DataSource × Option GoError :=
  let api := normalizeApi cfg expand api0
  if api.«Type» = httpSource then
    (some (.jsonApi api.Interval cfg.FetchTimeout api.URL (NewParser api)), none)
  else if api.«Type» = manualSource then
    (some (.jsonFile cfg.ManualDataFile (NewParser api)), none)
  else if api.«Type» = ethereumSource then
    match networkID with
    | .error e => (none, some e)
    | .ok netID =>
      match getAddressForNetwork api.URL netID with
      | .error e => (none, errorsWrap (some e) "getting address for network id")
      | .ok address =>
        if api.Parser = uniswapParser then
          (some (.uniswap symbol address api.Interval), none)
        else if api.Parser = balancerParser then
          (some (.balancer symbol address api.Interval), none)
        else
          (none, errorsWrap none "unknown source for on-chain index tracker")
  else
    (none, some (.msg "unknown index type for index object"))

/-- Function `createDataSources` over an already-flattened list of `(symbol, api)`
pairs: build each source in order, aborting on the first pair whose
per-descriptor processing does not yield a source. -/
def createDataSourcesAux (cfg : Config) (expand : String → String)
    (networkID : Except GoError Int)
    (getAddressForNetwork : String → Int → Except GoError String) :
    List (String × Api) → Option (List (String × DataSource)) × Option GoError
  | [] => (some [], none)
  | (symbol, api) :: rest =>
    match processApi cfg expand networkID getAddressForNetwork symbol api with
    | (some src, _) =>
      match createDataSourcesAux cfg expand networkID getAddressForNetwork rest with
      | (some srcs, none) => (some ((symbol, src) :: srcs), none)
      | (_, e) => (none, e)
    | (none, e) => (none, e)

/-- Function `createDataSources` (`index.go:99-175`) after the catalog file has been
read and JSON-decoded into `symbol → [Api]` entries. -/
def createDataSources (cfg : Config) (expand : String → String)
    (networkID : Except GoError Int)
    (getAddressForNetwork : String → Int → Except GoError String)
    (catalog : List (String × List Api)) :
    Option (List (String × DataSource)) × Option GoError :=
  createDataSourcesAux cfg expand networkID getAddressForNetwork
    (catalog.flatMap fun sa => sa.2.map fun a => (sa.1, a))

/-- The interval actually used for a source's ticker in `IndexTracker.Run`
(`index.go:184-187`): the source's own interval, or the configured default
when that is zero. -/
def runEffectiveInterval (cfg : Config) (ds : DataSource) : Int :=
  if ds.interval = 0 then cfg.Interval else ds.interval

/-- The value `int64(2 * 24 * time.Hour)` from `cmds.go:558`: `time.Hour` counts
nanoseconds. -/
def retentionDurationSet : Int := 2 * 24 * (3600 * 1000000000)

/-- The number of milliseconds in 48 hours, the unit in which the tsdb
interprets `RetentionDuration`. -/
def millisecondsIn48Hours : Int := 48 * 3600 * 1000

/-- Characters a Prometheus metric name may contain. -/
def isMetricNameSafe (c : Char) : Bool :=
  c.isAlphanum || c = '_' || c = ':'

/-- Function `util.SanitizeMetricName` is not under `src/`; modelled from the spec:
symbols are "sanitized into a metric-name-safe form", i.e. every character
outside the Prometheus metric-name charset is replaced by an underscore. -/
def sanitizeMetricName (s : String) : String :=
  ⟨s.data.map fun c => if isMetricNameSafe c then c else '_'⟩

/-- Constant `PriceSuffix` (`index.go:196`). -/
def PriceSuffix : String := "_price"
/-- Constant `VolumeSuffix` (`index.go:197`). -/
def VolumeSuffix : String := "_volume"
/-- Constant `ApiCountSuffix` (`index.go:263`). -/
def ApiCountSuffix : String := "_api_count"

/-- One sample handed to `appender.Append`: the `__name__` label, the
optional `source` label, the millisecond timestamp and the float value. -/
structure Sample where
  name : String
  sourceLabel : Option String
  time : Int
  value : Rat
deriving DecidableEq, Repr

/-- The outcome of one `dataSource.Get` call: an error, or a
`(price, volume, ts)` triple where `ts = 0` models the zero `time.Time`. -/
inductive GetResult where
  | err (e : GoError)
  | ok (price volume : Rat) (ts : Int)
deriving DecidableEq, Repr

/-- The `<symbol>_price` sample built at `index.go:233-240`. -/
def priceSample (symbol sourceId : String) (t : Int) (p : Rat) : Sample :=
  ⟨sanitizeMetricName (symbol ++ PriceSuffix), some sourceId, t, p⟩

/-- The `<symbol>_volume` sample built at `index.go:241-248`. -/
def volumeSample (symbol sourceId : String) (t : Int) (v : Rat) : Sample :=
  ⟨sanitizeMetricName (symbol ++ VolumeSuffix), some sourceId, t, v⟩

/-- The `<symbol>_api_count` sample built at `index.go:278-284`; it carries
no `source` label.  `time.Now().Round(0)` is the same wall-clock instant
with the monotonic reading stripped. -/
def apiCountSample (symbol : String) (count : Nat) (t : Int) : Sample :=
  ⟨sanitizeMetricName (symbol ++ ApiCountSuffix), none, t, (count : Rat)⟩

/-- The observable effects of one iteration of the `recordValues` loop body
(`index.go:216-259`). -/
structure IterResult where
  samplesAppended : List Sample
  committed : Bool
  errIncrements : List String
  priceGauge : Option Rat
  volumeGauge : Option Rat
  ticksWaited : Nat
  nextClock : Nat
deriving DecidableEq, Repr

/-- One iteration of the `recordValues` loop body after the cancellation
check (`index.go:216-259`), given the `Get` outcome and whether
`appender.Commit` succeeds.  `clock k` is the value of the `k`-th
`time.Now()` call; the staleness test reads the clock only when the source
timestamp is non-zero (Go's `&&` short-circuits), and the two appends each
read the clock once. -/
def recordValuesIterate (symbol sourceId : String) (clock : Nat → Int)
    (k : Nat) (res : GetResult) (commitOk : Bool) : IterResult :=
  match res with
  | .err _ =>
    { samplesAppended := [], committed := false, errIncrements := [sourceId],
      priceGauge := none, volumeGauge := none, ticksWaited := 1, nextClock := k }
  | .ok p v ts =>
    if ts ≠ 0 ∧ ts < clock k then
      { samplesAppended := [], committed := false, errIncrements := [],
        priceGauge := none, volumeGauge := none, ticksWaited := 1,
        nextClock := k + 1 }
    else
      let k1 := if ts ≠ 0 then k + 1 else k
      let sp := priceSample symbol sourceId (clock k1) p
      let sv := volumeSample symbol sourceId (clock (k1 + 1)) v
      if commitOk then
        { samplesAppended := [sp, sv], committed := true, errIncrements := [],
          priceGauge := some p, volumeGauge := some v, ticksWaited := 1,
          nextClock := k1 + 2 }
      else
        { samplesAppended := [sp, sv], committed := false, errIncrements := [],
          priceGauge := none, volumeGauge := none, ticksWaited := 1,
          nextClock := k1 + 2 }

/-- The samples appended by a run of the `recordValues` loop, one
`(Get outcome, commit outcome)` pair per iteration, in append order. -/
def runValueSamples (symbol sourceId : String) (clock : Nat → Int) :
    Nat → List (GetResult × Bool) → List Sample
  | _, [] => []
  | k, (res, cOk) :: rest =>
    let r := recordValuesIterate symbol sourceId clock k res cOk
    r.samplesAppended ++ runValueSamples symbol sourceId clock r.nextClock rest

/-- The samples appended by a run of the `recordApiCount` loop
(`index.go:267-294`): one `<symbol>_api_count` sample per iteration, each
reading the clock once; the count never changes. -/
def runApiCountSamples (symbol : String) (count : Nat) (clock : Nat → Int) :
    Nat → Nat → List Sample
  | _, 0 => []
  | k, n + 1 =>
    apiCountSample symbol count (clock k) ::
      runApiCountSamples symbol count clock (k + 1) n

/-- The call `time.Sleep(time.Duration(delay))` at `index.go:203`: converting the
ordinal `int` directly to a `time.Duration` yields `delay` nanoseconds,
i.e. one stagger unit per ordinal with a one-nanosecond unit. -/
def staggerSleepNs (delay : Nat) : Int := delay

/-- The stagger unit the code actually uses: one nanosecond. -/
def staggerUnitNs : Int := 1

/-- In the exact-time model, the instant of a value loop's first `Get`:
loop start plus its startup stagger sleep. -/
def firstFetchTime (t0 : Int) (ordinal : Nat) : Int :=
  t0 + staggerSleepNs ordinal

/-- Events of a worker loop, in program order: the cancellation check
(`select` on `ctx.Done()`), the `Get` call, a sample append, an error
counter increment, a commit, and the tick wait. -/
inductive Ev where
  | checkCancel
  | getCall
  | append (s : Sample)
  | errInc
  | commit
  | tickWait
deriving DecidableEq, Repr

/-- The events after the appends in one `recordValues` iteration: the error
counter increment on the error path, the commit when samples were appended,
and the tick wait every path ends with. -/
def iterSuffix (r : IterResult) : List Ev :=
  (if r.errIncrements.isEmpty then [] else [.errInc]) ++
    (if r.samplesAppended.isEmpty then [] else [.commit]) ++ [.tickWait]

/-- The event list of one `recordValues` iteration, in source order:
cancellation check, `Get`, the appends, then `iterSuffix`. -/
def iterEvents (symbol sourceId : String) (clock : Nat → Int) (k : Nat)
    (res : GetResult) (commitOk : Bool) : List Ev × Nat :=
  let r := recordValuesIterate symbol sourceId clock k res commitOk
  ([.checkCancel, .getCall] ++ r.samplesAppended.map Ev.append ++ iterSuffix r,
    r.nextClock)

/-- A run of the `recordValues` loop as an event trace.  `cancelAt` is the
position in the trace at which the root cancellation trips: the loop-head
`select` observes it only when the events emitted so far (`emitted`) have
reached `cancelAt`, in which case the loop exits; an iteration already past
its check runs to completion.  The iteration input list bounds the run. -/
def runValueLoop (cancelAt : Nat) (symbol sourceId : String)
    (clock : Nat → Int) : Nat → Nat → List (GetResult × Bool) → List Ev
  | _, _, [] => []
  | k, emitted, (res, cOk) :: rest =>
    if cancelAt ≤ emitted then [.checkCancel]
    else
      let ev := iterEvents symbol sourceId clock k res cOk
      ev.1 ++ runValueLoop cancelAt symbol sourceId clock ev.2
        (emitted + ev.1.length) rest

/-- The event list of one `recordApiCount` iteration (`index.go:270-292`):
cancellation check, the single append, the commit, the tick wait. -/
def apiIterEvents (symbol : String) (count : Nat) (clock : Nat → Int)
    (k : Nat) : List Ev :=
  [.checkCancel, .append (apiCountSample symbol count (clock k)), .commit,
    .tickWait]

/-- A run of the `recordApiCount` loop as an event trace, with the same
cancellation convention as `runValueLoop`; the `Nat` fuel bounds the run. -/
def runApiCountLoop (cancelAt : Nat) (symbol : String) (count : Nat)
    (clock : Nat → Int) : Nat → Nat → Nat → List Ev
  | _, _, 0 => []
  | k, emitted, n + 1 =>
    if cancelAt ≤ emitted then [.checkCancel]
    else
      apiIterEvents symbol count clock k ++
        runApiCountLoop cancelAt symbol count clock (k + 1) (emitted + 4) n

/-- Method `JSONfile.Get` (`index.go:374-380`): read the file at `filepath` from
the filesystem `fs` (ignoring the context argument); a read failure is an
error, otherwise the bytes are handed to the embedded `Parser` value.  The
JSON-path evaluation itself lives in the external `yalp/jsonpath` library,
so the embedding returns the bytes read together with the parser they are
handed to. -/
def jsonFileGet (filepath : String) (p : Option Parser)
    (fs : String → Option (List Nat)) :
    Except GoError (List Nat × Option Parser) :=
  match fs filepath with
  | none => .error (.msg "read error")
  | some b => .ok (b, p)

/-- Sanitizing a string of metric-name-safe characters leaves it unchanged. -/
theorem sanitizeMetricName_of_safe (s : String)
    (h : ∀ c ∈ s.data, isMetricNameSafe c) : sanitizeMetricName s = s := by
  obtain ⟨l⟩ := s
  simp only [sanitizeMetricName]
  congr 1
  induction l with
  | nil => rfl
  | cons c cs ih =>
    simp only [List.map_cons]
    rw [if_pos (h c (by simp)), ih (fun c hc => h c (by simp [hc]))]

/-- Sanitizing preserves the length of a string. -/
theorem sanitizeMetricName_length (s : String) :
    (sanitizeMetricName s).length = s.length := by
  obtain ⟨l⟩ := s
  simp [sanitizeMetricName, String.length]

/-- C1: the claim states the tick interval of a value loop equals
`max(descriptor.interval, defaultInterval)`.  The code instead overwrites
every non-zero descriptor interval with the default at load time
(`index.go:127-129` tests `!= 0` where the intent, per the code comment at
`index.go:183` and the spec, is `== 0`), so a descriptor with interval `10`
under default `5` is polled every `5`, not `max 10 5 = 10`. -/
theorem interval_override_defeats_descriptor_interval :
    processApi ⟨5, 7, "api.json", "manual.json"⟩ id (.ok 1)
        (fun _ _ => .ok "0xabc") "SYM" ⟨"u", "http", "jsonPath", "$.p", 10⟩ =
      (some (.jsonApi 5 7 "u" (some (.jsonPath "$.p"))), none) ∧
    runEffectiveInterval ⟨5, 7, "api.json", "manual.json"⟩
        (.jsonApi 5 7 "u" (some (.jsonPath "$.p"))) = 5 ∧
    max (10 : Int) 5 = 10 ∧ (5 : Int) ≠ 10 := by
  refine ⟨by decide, by decide, by decide, by decide⟩

/-- C2: each value loop sleeps its ordinal index worth of stagger units
before its first fetch (`index.go:203`; the unit the conversion
`time.Duration(delay)` produces is one nanosecond), so in the exact-time
model the first fetches of two distinct ordinals happen at distinct
instants. -/
theorem stagger_delay_ordinal_distinct :
    (∀ i : Nat, staggerSleepNs i = i * staggerUnitNs) ∧
    ∀ (t0 : Int) (i j : Nat), i ≠ j →
      firstFetchTime t0 i ≠ firstFetchTime t0 j := by
  constructor
  · intro i; simp [staggerSleepNs, staggerUnitNs]
  · intro t0 i j hij h
    apply hij
    simpa [firstFetchTime, staggerSleepNs] using h

theorem stagger_delay_ordinal_distinct_witness :
    (0 : Nat) ≠ 1 ∧ staggerSleepNs 0 = 0 * staggerUnitNs ∧
    firstFetchTime 0 0 ≠ firstFetchTime 0 1 :=
  ⟨by decide, stagger_delay_ordinal_distinct.1 0,
    stagger_delay_ordinal_distinct.2 0 0 1 (by decide)⟩

/-- C3: the claim states an unknown parser name is a hard error at load
time for every descriptor type.  The code never errors on an unknown
parser: for `http` (and `manualData`) descriptors `NewParser` returns the
nil interface value and the source is created anyway (`index.go:465-474`),
and for `ethereum` descriptors the branch wraps the at-that-point nil
`err` (`index.go:162`), and `errors.Wrapf(nil, …)` is nil, so
`createDataSources` returns `(nil, nil)` — no error either way. -/
theorem unknown_parser_not_fatal :
    ("bogus" ≠ jsonPathParser ∧ "bogus" ≠ uniswapParser ∧
      "bogus" ≠ balancerParser ∧ "bogus" ≠ "") ∧
    createDataSources ⟨5, 7, "api.json", "manual.json"⟩ id (.ok 1)
        (fun _ _ => .ok "0xabc") [("SYM", [⟨"u", "http", "bogus", "$.p", 0⟩])] =
      (some [("SYM", .jsonApi 0 7 "u" none)], none) ∧
    createDataSources ⟨5, 7, "api.json", "manual.json"⟩ id (.ok 1)
        (fun _ _ => .ok "0xabc")
        [("SYM", [⟨"netmap", "ethereum", "bogus", "", 0⟩])] =
      (none, none) := by
  refine ⟨by decide, by decide, by decide⟩

/-- C4: when `Get` errors, the iteration increments `errors_total` for that
source exactly once, appends no sample, and waits one full tick
(`index.go:216-222`). -/
theorem fetch_error_counts_once_no_sample (symbol sourceId : String)
    (clock : Nat → Int) (k : Nat) (e : GoError) (commitOk : Bool) :
    recordValuesIterate symbol sourceId clock k (.err e) commitOk =
      { samplesAppended := [], committed := false, errIncrements := [sourceId],
        priceGauge := none, volumeGauge := none, ticksWaited := 1,
        nextClock := k } :=
  rfl

/-- C5: when `Get` succeeds with a non-zero source timestamp strictly
earlier than the current wall clock, the sample is discarded: nothing is
appended, the error counter is untouched, and the loop waits one tick
(`index.go:224-229`). -/
theorem stale_sample_discarded_silently (symbol sourceId : String)
    (clock : Nat → Int) (k : Nat) (p v : Rat) (ts : Int) (commitOk : Bool)
    (hts : ts ≠ 0) (hlt : ts < clock k) :
    recordValuesIterate symbol sourceId clock k (.ok p v ts) commitOk =
      { samplesAppended := [], committed := false, errIncrements := [],
        priceGauge := none, volumeGauge := none, ticksWaited := 1,
        nextClock := k + 1 } := by
  simp only [recordValuesIterate]
  rw [if_pos ⟨hts, hlt⟩]

theorem stale_sample_discarded_silently_witness :
    (3 : Int) ≠ 0 ∧ (3 : Int) < (fun _ : Nat => (5 : Int)) 0 ∧
    recordValuesIterate "SYM" "u" (fun _ => (5 : Int)) 0 (.ok 1 2 3) true =
      { samplesAppended := [], committed := false, errIncrements := [],
        priceGauge := none, volumeGauge := none, ticksWaited := 1,
        nextClock := 1 } :=
  ⟨by decide, by decide,
    stale_sample_discarded_silently "SYM" "u" (fun _ => (5 : Int)) 0 1 2 3 true
      (by decide) (by decide)⟩

/-- C6: when `Get` succeeds with a zero source timestamp, the iteration
appends exactly one `<symbol>_price` sample with the price and one
`<symbol>_volume` sample with the volume, both labelled with the source's
canonical id, each stamped with the wall clock read at its own append
(`index.go:231-254`), and commits them; for a metric-name-safe symbol the
sanitized names are literally `symbol ++ "_price"` / `symbol ++ "_volume"`,
and the two names differ. -/
theorem fresh_sample_appends_price_volume (symbol sourceId : String)
    (clock : Nat → Int) (k : Nat) (p v : Rat)
    (hsafe : ∀ c ∈ symbol.data, isMetricNameSafe c) :
    (recordValuesIterate symbol sourceId clock k (.ok p v 0) true).samplesAppended =
      [⟨symbol ++ PriceSuffix, some sourceId, clock k, p⟩,
        ⟨symbol ++ VolumeSuffix, some sourceId, clock (k + 1), v⟩] ∧
    (recordValuesIterate symbol sourceId clock k (.ok p v 0) true).committed = true ∧
    (recordValuesIterate symbol sourceId clock k (.ok p v 0) true).errIncrements = [] ∧
    symbol ++ PriceSuffix ≠ symbol ++ VolumeSuffix := by
  have hsufp : ∀ c ∈ PriceSuffix.data, isMetricNameSafe c := by decide
  have hsufv : ∀ c ∈ VolumeSuffix.data, isMetricNameSafe c := by decide
  have hps : ∀ c ∈ (symbol ++ PriceSuffix).data, isMetricNameSafe c := by
    intro c hc
    rw [String.data_append] at hc
    rcases List.mem_append.1 hc with hc | hc
    · exact hsafe c hc
    · exact hsufp c hc
  have hvs : ∀ c ∈ (symbol ++ VolumeSuffix).data, isMetricNameSafe c := by
    intro c hc
    rw [String.data_append] at hc
    rcases List.mem_append.1 hc with hc | hc
    · exact hsafe c hc
    · exact hsufv c hc
  have hred : recordValuesIterate symbol sourceId clock k (.ok p v 0) true =
      { samplesAppended := [priceSample symbol sourceId (clock k) p,
          volumeSample symbol sourceId (clock (k + 1)) v],
        committed := true, errIncrements := [], priceGauge := some p,
        volumeGauge := some v, ticksWaited := 1, nextClock := k + 2 } := by
    simp [recordValuesIterate]
  refine ⟨?_, by rw [hred], by rw [hred], ?_⟩
  · rw [hred]
    simp only [priceSample, volumeSample]
    rw [sanitizeMetricName_of_safe _ hps, sanitizeMetricName_of_safe _ hvs]
  · intro hne
    have hdata := congrArg String.data hne
    rw [String.data_append, String.data_append] at hdata
    have hsuf := List.append_cancel_left hdata
    exact absurd hsuf (by decide)

theorem fresh_sample_appends_price_volume_witness :
    (∀ c ∈ ("BTCUSD" : String).data, isMetricNameSafe c) ∧
    ((recordValuesIterate "BTCUSD" "http://x" (fun n => (n : Int)) 0
          (.ok 1234 5 0) true).samplesAppended =
        [⟨"BTCUSD" ++ PriceSuffix, some "http://x", 0, 1234⟩,
          ⟨"BTCUSD" ++ VolumeSuffix, some "http://x", 1, 5⟩] ∧
      (recordValuesIterate "BTCUSD" "http://x" (fun n => (n : Int)) 0
          (.ok 1234 5 0) true).committed = true ∧
      (recordValuesIterate "BTCUSD" "http://x" (fun n => (n : Int)) 0
          (.ok 1234 5 0) true).errIncrements = [] ∧
      "BTCUSD" ++ PriceSuffix ≠ "BTCUSD" ++ VolumeSuffix) :=
  ⟨by decide,
    fresh_sample_appends_price_volume "BTCUSD" "http://x" (fun n => (n : Int))
      0 1234 5 (by decide)⟩

/-- Normalizing a descriptor that differs only in URL gives the same
normalized descriptor with the expanded new URL: no other field of
`normalizeApi` depends on the URL. -/
theorem normalizeApi_url_update (cfg : Config) (expand : String → String)
    (api : Api) (u : String) :
    normalizeApi cfg expand { api with URL := u } =
      { normalizeApi cfg expand api with URL := expand u } := by
  obtain ⟨url, T, P, prm, itv⟩ := api
  by_cases h1 : T = "" <;> by_cases h2 : itv = 0 <;> by_cases h3 : P = "" <;>
    simp [normalizeApi, h1, h2, h3]

/-- Normalization keeps a non-empty descriptor type. -/
theorem normalizeApi_type (cfg : Config) (expand : String → String)
    (api : Api) (h : api.«Type» ≠ "") :
    (normalizeApi cfg expand api).«Type» = api.«Type» := by
  obtain ⟨url, T, P, prm, itv⟩ := api
  by_cases h2 : itv = 0 <;> by_cases h3 : P = "" <;>
    simp [normalizeApi, h, h2, h3]

/-- Function `NewParser` reads only the parser name and the param, never the URL. -/
theorem NewParser_url_update (api : Api) (u : String) :
    NewParser { api with URL := u } = NewParser api := rfl

/-- A descriptor normalized to the `manualData` type is dispatched to the
`JSONfile` branch: the source is built on `cfg.ManualDataFile` with the
parser of the normalized descriptor, and no error is returned. -/
theorem processApi_manual (cfg : Config) (expand : String → String)
    (networkID : Except GoError Int)
    (getAddr : String → Int → Except GoError String) (symbol : String)
    (api : Api) (h : (normalizeApi cfg expand api).«Type» = manualSource) :
    processApi cfg expand networkID getAddr symbol api =
      (some (.jsonFile cfg.ManualDataFile
        (NewParser (normalizeApi cfg expand api))), none) := by
  simp only [processApi]
  rw [if_neg (by rw [h]; decide), if_pos h]

/-- C10: a `manualData` descriptor yields a `JSONfile` source whose file
path is the configured `ManualDataFile` (`index.go:140-143`): its `Source()`
is that path, its `Get` consults the filesystem only at that path
(`index.go:374-380`), and the descriptor's own URL never flows into the
source, so two `manualData` descriptors differing only in URL build the
same source. -/
theorem manual_source_ignores_url (cfg : Config) (expand : String → String)
    (networkID : Except GoError Int)
    (getAddr : String → Int → Except GoError String)
    (symbol u' : String) (api : Api) (hT : api.«Type» = manualSource) :
    processApi cfg expand networkID getAddr symbol { api with URL := u' } =
      processApi cfg expand networkID getAddr symbol api ∧
    processApi cfg expand networkID getAddr symbol api =
      (some (.jsonFile cfg.ManualDataFile
        (NewParser (normalizeApi cfg expand api))), none) ∧
    DataSource.source
        (.jsonFile cfg.ManualDataFile (NewParser (normalizeApi cfg expand api))) =
      cfg.ManualDataFile ∧
    ∀ fs fs' : String → Option (List Nat),
      fs cfg.ManualDataFile = fs' cfg.ManualDataFile →
      jsonFileGet cfg.ManualDataFile (NewParser (normalizeApi cfg expand api)) fs =
        jsonFileGet cfg.ManualDataFile (NewParser (normalizeApi cfg expand api)) fs' := by
  have hne : api.«Type» ≠ "" := by rw [hT]; decide
  have hTn : (normalizeApi cfg expand api).«Type» = manualSource := by
    rw [normalizeApi_type cfg expand api hne, hT]
  have hTn' : (normalizeApi cfg expand { api with URL := u' }).«Type» =
      manualSource := by
    rw [normalizeApi_url_update]
    exact hTn
  refine ⟨?_, processApi_manual cfg expand networkID getAddr symbol api hTn,
    rfl, ?_⟩
  · rw [processApi_manual cfg expand networkID getAddr symbol api hTn,
      processApi_manual cfg expand networkID getAddr symbol _ hTn',
      normalizeApi_url_update, NewParser_url_update]
  · intro fs fs' hfs
    simp [jsonFileGet, hfs]

theorem manual_source_ignores_url_witness :
    ((⟨"urlA", "manualData", "jsonPath", "$.p", 0⟩ : Api).«Type» =
        manualSource) ∧
    (processApi ⟨5, 7, "api.json", "manual.json"⟩ id (.ok 1)
        (fun _ _ => .ok "0xabc") "SYM"
        { (⟨"urlA", "manualData", "jsonPath", "$.p", 0⟩ : Api) with
            URL := "urlB" } =
      processApi ⟨5, 7, "api.json", "manual.json"⟩ id (.ok 1)
        (fun _ _ => .ok "0xabc") "SYM"
        ⟨"urlA", "manualData", "jsonPath", "$.p", 0⟩ ∧
    processApi ⟨5, 7, "api.json", "manual.json"⟩ id (.ok 1)
        (fun _ _ => .ok "0xabc") "SYM"
        ⟨"urlA", "manualData", "jsonPath", "$.p", 0⟩ =
      (some (.jsonFile "manual.json"
        (NewParser (normalizeApi ⟨5, 7, "api.json", "manual.json"⟩ id
          ⟨"urlA", "manualData", "jsonPath", "$.p", 0⟩))), none) ∧
    DataSource.source (.jsonFile "manual.json"
        (NewParser (normalizeApi ⟨5, 7, "api.json", "manual.json"⟩ id
          ⟨"urlA", "manualData", "jsonPath", "$.p", 0⟩))) = "manual.json" ∧
    ∀ fs fs' : String → Option (List Nat),
      fs "manual.json" = fs' "manual.json" →
      jsonFileGet "manual.json"
          (NewParser (normalizeApi ⟨5, 7, "api.json", "manual.json"⟩ id
            ⟨"urlA", "manualData", "jsonPath", "$.p", 0⟩)) fs =
        jsonFileGet "manual.json"
          (NewParser (normalizeApi ⟨5, 7, "api.json", "manual.json"⟩ id
            ⟨"urlA", "manualData", "jsonPath", "$.p", 0⟩)) fs') :=
  ⟨rfl,
    manual_source_ignores_url ⟨5, 7, "api.json", "manual.json"⟩ id (.ok 1)
      (fun _ _ => .ok "0xabc") "SYM" "urlB"
      ⟨"urlA", "manualData", "jsonPath", "$.p", 0⟩ rfl⟩

/-- Each `recordValues` iteration either appends nothing and leaves the
clock cursor at `k` or `k + 1`, or appends the price/volume pair stamped
with two consecutive clock reads from a cursor at or past `k` and advances
the cursor past both. -/
theorem recordValuesIterate_shape (symbol sourceId : String)
    (clock : Nat → Int) (k : Nat) (res : GetResult) (cOk : Bool) :
    ((recordValuesIterate symbol sourceId clock k res cOk).samplesAppended = [] ∧
      k ≤ (recordValuesIterate symbol sourceId clock k res cOk).nextClock) ∨
    ∃ k1 p v, k ≤ k1 ∧
      (recordValuesIterate symbol sourceId clock k res cOk).samplesAppended =
        [priceSample symbol sourceId (clock k1) p,
          volumeSample symbol sourceId (clock (k1 + 1)) v] ∧
      (recordValuesIterate symbol sourceId clock k res cOk).nextClock = k1 + 2 := by
  rcases res with e | ⟨p, v, ts⟩
  · exact Or.inl ⟨rfl, le_refl k⟩
  · by_cases hst : ts ≠ 0 ∧ ts < clock k
    · left
      constructor <;> simp [recordValuesIterate, hst]
    · right
      refine ⟨if ts ≠ 0 then k + 1 else k, p, v, by split <;> omega, ?_, ?_⟩ <;>
        cases cOk <;> simp [recordValuesIterate, hst]

/-- Every sample appended by a `recordValues` run starting at clock cursor
`k` is stamped no earlier than `clock k`. -/
theorem runValueSamples_time_lb (symbol sourceId : String)
    (clock : Nat → Int) (hmono : Monotone clock) :
    ∀ (inputs : List (GetResult × Bool)) (k : Nat) (s : Sample),
      s ∈ runValueSamples symbol sourceId clock k inputs →
      clock k ≤ s.time := by
  intro inputs
  induction inputs with
  | nil => intro k s hs; simp [runValueSamples] at hs
  | cons ic rest ih =>
    obtain ⟨res, cOk⟩ := ic
    intro k s hs
    simp only [runValueSamples] at hs
    have hnc : k ≤ (recordValuesIterate symbol sourceId clock k res cOk).nextClock := by
      rcases recordValuesIterate_shape symbol sourceId clock k res cOk with
        ⟨_, h⟩ | ⟨k1, p, v, hk1, _, hn⟩
      · exact h
      · omega
    rcases List.mem_append.1 hs with hs | hs
    · rcases recordValuesIterate_shape symbol sourceId clock k res cOk with
        ⟨hemp, _⟩ | ⟨k1, p, v, hk1, hsamp, _⟩
      · rw [hemp] at hs; simp at hs
      · rw [hsamp] at hs
        simp only [List.mem_cons, List.not_mem_nil, or_false] at hs
        rcases hs with rfl | rfl
        · exact hmono hk1
        · exact hmono (le_trans hk1 (Nat.le_succ k1))
    · exact le_trans (hmono hnc) (ih _ s hs)

/-- The samples appended by one `recordValues` loop carry monotonically
non-decreasing timestamps whenever the wall clock is monotone. -/
theorem runValueSamples_pairwise (symbol sourceId : String)
    (clock : Nat → Int) (hmono : Monotone clock) :
    ∀ (inputs : List (GetResult × Bool)) (k : Nat),
      List.Pairwise (fun a b : Sample => a.time ≤ b.time)
        (runValueSamples symbol sourceId clock k inputs) := by
  intro inputs
  induction inputs with
  | nil => intro k; simp [runValueSamples]
  | cons ic rest ih =>
    obtain ⟨res, cOk⟩ := ic
    intro k
    simp only [runValueSamples]
    rcases recordValuesIterate_shape symbol sourceId clock k res cOk with
      ⟨hemp, _⟩ | ⟨k1, p, v, hk1, hsamp, hnext⟩
    · rw [hemp]; simpa using ih _
    · rw [hsamp, hnext]
      refine List.pairwise_append.2 ⟨?_, ih _, ?_⟩
      · simp only [List.pairwise_cons, List.not_mem_nil, false_implies,
          implies_true, List.Pairwise.nil, and_true, List.mem_singleton]
        intro b hb
        subst hb
        exact hmono (Nat.le_succ k1)
      · intro a ha b hb
        have hbt := runValueSamples_time_lb symbol sourceId clock hmono
          rest (k1 + 2) b hb
        simp only [List.mem_cons, List.not_mem_nil, or_false] at ha
        rcases ha with rfl | rfl
        · exact le_trans (hmono (by omega : k1 ≤ k1 + 2)) hbt
        · exact le_trans (hmono (by omega : k1 + 1 ≤ k1 + 2)) hbt

/-- Every sample appended by a `recordApiCount` run starting at clock
cursor `k` is stamped no earlier than `clock k`. -/
theorem runApiCountSamples_time_lb (symbol : String) (count : Nat)
    (clock : Nat → Int) (hmono : Monotone clock) :
    ∀ (n k : Nat) (s : Sample),
      s ∈ runApiCountSamples symbol count clock k n → clock k ≤ s.time := by
  intro n
  induction n with
  | zero => intro k s hs; simp [runApiCountSamples] at hs
  | succ m ih =>
    intro k s hs
    simp only [runApiCountSamples] at hs
    rcases List.mem_cons.1 hs with rfl | hs
    · exact le_refl _
    · exact le_trans (hmono (Nat.le_succ k)) (ih (k + 1) s hs)

/-- The samples appended by one `recordApiCount` loop carry monotonically
non-decreasing timestamps whenever the wall clock is monotone. -/
theorem runApiCountSamples_pairwise (symbol : String) (count : Nat)
    (clock : Nat → Int) (hmono : Monotone clock) :
    ∀ (n k : Nat),
      List.Pairwise (fun a b : Sample => a.time ≤ b.time)
        (runApiCountSamples symbol count clock k n) := by
  intro n
  induction n with
  | zero => intro k; simp [runApiCountSamples]
  | succ m ih =>
    intro k
    simp only [runApiCountSamples]
    refine List.pairwise_cons.2 ⟨?_, ih (k + 1)⟩
    intro b hb
    exact le_trans (hmono (Nat.le_succ k))
      (runApiCountSamples_time_lb symbol count clock hmono m (k + 1) b hb)

/-- C8: with a monotone wall clock, the timestamps of the samples a single
(symbol, source) value loop appends over its lifetime are monotonically
non-decreasing, and so are the timestamps of the per-symbol api-count
loop's samples (`index.go:231-254`, `index.go:277-289`): each append
stamps a fresh, later clock read. -/
theorem series_timestamps_monotone (symbol sourceId : String) (count : Nat)
    (clock : Nat → Int) (hmono : Monotone clock) (k k' n : Nat)
    (inputs : List (GetResult × Bool)) :
    List.Pairwise (fun a b : Sample => a.time ≤ b.time)
      (runValueSamples symbol sourceId clock k inputs) ∧
    List.Pairwise (fun a b : Sample => a.time ≤ b.time)
      (runApiCountSamples symbol count clock k' n) :=
  ⟨runValueSamples_pairwise symbol sourceId clock hmono inputs k,
    runApiCountSamples_pairwise symbol count clock hmono n k'⟩

theorem series_timestamps_monotone_witness :
    Monotone (fun m : Nat => (m : Int)) ∧
    (List.Pairwise (fun a b : Sample => a.time ≤ b.time)
        (runValueSamples "SYM" "u" (fun m : Nat => (m : Int)) 0
          [(.ok 1 2 0, true), (.err (.msg "boom"), true), (.ok 3 4 0, false)]) ∧
      List.Pairwise (fun a b : Sample => a.time ≤ b.time)
        (runApiCountSamples "SYM" 3 (fun m : Nat => (m : Int)) 0 2)) :=
  have hm : Monotone (fun m : Nat => (m : Int)) := fun a b h => by
    show (a : Int) ≤ b
    exact_mod_cast h
  ⟨hm, series_timestamps_monotone "SYM" "u" 3 (fun m : Nat => (m : Int))
    hm 0 0 2 [(.ok 1 2 0, true), (.err (.msg "boom"), true), (.ok 3 4 0, false)]⟩

/-- A `recordValues` iteration appends at most two samples. -/
theorem recordValuesIterate_samples_len (symbol sourceId : String)
    (clock : Nat → Int) (k : Nat) (res : GetResult) (cOk : Bool) :
    (recordValuesIterate symbol sourceId clock k res cOk).samplesAppended.length ≤ 2 := by
  rcases recordValuesIterate_shape symbol sourceId clock k res cOk with
    ⟨h, _⟩ | ⟨k1, p, v, _, h, _⟩ <;> simp [h]

/-- The post-append tail of an iteration's event list contains no append
event. -/
theorem append_not_mem_iterSuffix (r : IterResult) (s : Sample) :
    Ev.append s ∉ iterSuffix r := by
  unfold iterSuffix
  by_cases h1 : r.errIncrements.isEmpty <;>
    by_cases h2 : r.samplesAppended.isEmpty <;> simp [h1, h2]

/-- Within one `recordValues` iteration's event list, append events occupy
only offsets 2 and 3 (right after the cancellation check and the `Get`). -/
theorem iterEvents_append_le (symbol sourceId : String) (clock : Nat → Int)
    (k : Nat) (res : GetResult) (cOk : Bool) (i : Nat) (s : Sample)
    (h : ((iterEvents symbol sourceId clock k res cOk).1)[i]? =
      some (.append s)) : i ≤ 3 := by
  match i with
  | 0 => simp [iterEvents] at h
  | 1 => simp [iterEvents] at h
  | (m + 2) =>
    have h' : ((recordValuesIterate symbol sourceId clock k res cOk).samplesAppended.map
        Ev.append ++ iterSuffix (recordValuesIterate symbol sourceId clock k res cOk))[m]? =
        some (.append s) := by
      simpa [iterEvents] using h
    rcases Nat.lt_or_ge m ((recordValuesIterate symbol sourceId clock k res
        cOk).samplesAppended.map Ev.append).length with hm | hm
    · have hlen := recordValuesIterate_samples_len symbol sourceId clock k res cOk
      rw [List.length_map] at hm
      omega
    · rw [List.getElem?_append_right hm] at h'
      exact absurd (List.getElem?_mem h')
        (append_not_mem_iterSuffix _ s)

/-- In a `recordValues` event trace with cancellation arriving at absolute
position `cancelAt`, every append event sits strictly before position
`cancelAt + 3`: the loop exits at the first cancellation check at or past
`cancelAt`, and an iteration already past its check appends only at
offsets 2 and 3 from that check. -/
theorem runValueLoop_append_pos (cancelAt : Nat) (symbol sourceId : String)
    (clock : Nat → Int) :
    ∀ (inputs : List (GetResult × Bool)) (k emitted i : Nat) (s : Sample),
      (runValueLoop cancelAt symbol sourceId clock k emitted inputs)[i]? =
        some (.append s) → emitted + i < cancelAt + 3 := by
  intro inputs
  induction inputs with
  | nil => intro k emitted i s h; simp [runValueLoop] at h
  | cons ic rest ih =>
    obtain ⟨res, cOk⟩ := ic
    intro k emitted i s h
    simp only [runValueLoop] at h
    by_cases hc : cancelAt ≤ emitted
    · rw [if_pos hc] at h
      match i with
      | 0 => simp at h
      | m + 1 => simp at h
    · rw [if_neg hc] at h
      rcases Nat.lt_or_ge i
          (iterEvents symbol sourceId clock k res cOk).1.length with hi | hi
      · rw [List.getElem?_append_left hi] at h
        have hle := iterEvents_append_le symbol sourceId clock k res cOk i s h
        omega
      · rw [List.getElem?_append_right hi] at h
        have := ih (iterEvents symbol sourceId clock k res cOk).2
          (emitted + (iterEvents symbol sourceId clock k res cOk).1.length)
          (i - (iterEvents symbol sourceId clock k res cOk).1.length) s h
        omega

/-- Within one `recordApiCount` iteration's event list, the only append
event sits at offset 1. -/
theorem apiIterEvents_append_eq (symbol : String) (count : Nat)
    (clock : Nat → Int) (k i : Nat) (s : Sample)
    (h : (apiIterEvents symbol count clock k)[i]? = some (.append s)) :
    i = 1 := by
  match i with
  | 0 => simp [apiIterEvents] at h
  | 1 => rfl
  | 2 => simp [apiIterEvents] at h
  | 3 => simp [apiIterEvents] at h
  | m + 4 => simp [apiIterEvents] at h

/-- In a `recordApiCount` event trace with cancellation arriving at
absolute position `cancelAt`, every append event sits strictly before
position `cancelAt + 1`. -/
theorem runApiCountLoop_append_pos (cancelAt : Nat) (symbol : String)
    (count : Nat) (clock : Nat → Int) :
    ∀ (n k emitted i : Nat) (s : Sample),
      (runApiCountLoop cancelAt symbol count clock k emitted n)[i]? =
        some (.append s) → emitted + i < cancelAt + 1 := by
  intro n
  induction n with
  | zero => intro k emitted i s h; simp [runApiCountLoop] at h
  | succ m ih =>
    intro k emitted i s h
    simp only [runApiCountLoop] at h
    by_cases hc : cancelAt ≤ emitted
    · rw [if_pos hc] at h
      match i with
      | 0 => simp at h
      | j + 1 => simp at h
    · rw [if_neg hc] at h
      rcases Nat.lt_or_ge i (apiIterEvents symbol count clock k).length with hi | hi
      · rw [List.getElem?_append_left hi] at h
        have := apiIterEvents_append_eq symbol count clock k i s h
        omega
      · rw [List.getElem?_append_right hi] at h
        have hlen : (apiIterEvents symbol count clock k).length = 4 := rfl
        have := ih (k + 1) (emitted + 4) (i - (apiIterEvents symbol count clock k).length) s h
        omega

/-- C7 (counterexample): the claim states that from the instant of
cancellation onward no worker appends any sample.  In the trace of a value
loop whose cancellation trips at position 1 — right after the loop-head
check, e.g. while `JSONfile.Get` (which ignores the context) is reading —
the in-flight iteration still appends its volume sample at position 3,
after the cancellation instant, so the store's sample count is not stable
from the instant of cancellation. -/
theorem cancellation_midflight_append :
    (runValueLoop 1 "SYM" "u" (fun _ => (0 : Int)) 0 0 [(.ok 2 4 0, true)])[3]? =
      some (.append ⟨"SYM_volume", some "u", 0, 4⟩) ∧ 1 ≤ 3 := by
  refine ⟨by decide, by decide⟩

/-- C7 (amended): after cancellation trips, only the single iteration
already past its loop-head cancellation check may still append — every
append event of a value loop sits strictly before 3 events past the
cancellation position, and every append of an api-count loop strictly
before 1 event past it; from each worker's next loop-head check onward the
store receives nothing further from it. -/
theorem cancellation_append_bound (cancelAt : Nat) (symbol sourceId : String)
    (count : Nat) (clock : Nat → Int) (k emitted i : Nat) (s : Sample)
    (inputs : List (GetResult × Bool)) (n : Nat) :
    ((runValueLoop cancelAt symbol sourceId clock k emitted inputs)[i]? =
        some (.append s) → emitted + i < cancelAt + 3) ∧
    ((runApiCountLoop cancelAt symbol count clock k emitted n)[i]? =
        some (.append s) → emitted + i < cancelAt + 1) :=
  ⟨fun h => runValueLoop_append_pos cancelAt symbol sourceId clock inputs
      k emitted i s h,
    fun h => runApiCountLoop_append_pos cancelAt symbol count clock n
      k emitted i s h⟩

theorem cancellation_append_bound_witness :
    ((runValueLoop 2 "SYM" "u" (fun _ => (0 : Int)) 0 0 [(.ok 1 2 0, true)])[2]? =
        some (.append ⟨"SYM_price", some "u", 0, 1⟩) ∧ 0 + 2 < 2 + 3) ∧
    ((runApiCountLoop 2 "SYM" 3 (fun _ => (0 : Int)) 0 0 1)[1]? =
        some (.append ⟨"SYM_api_count", none, 0, 3⟩) ∧ 0 + 1 < 2 + 1) :=
  ⟨⟨by decide,
      (cancellation_append_bound 2 "SYM" "u" 3 (fun _ => (0 : Int)) 0 0 2
        ⟨"SYM_price", some "u", 0, 1⟩ [(.ok 1 2 0, true)] 1).1 (by decide)⟩,
    ⟨by decide,
      (cancellation_append_bound 2 "SYM" "u" 3 (fun _ => (0 : Int)) 0 0 1
        ⟨"SYM_api_count", none, 0, 3⟩ [(.ok 1 2 0, true)] 1).2 (by decide)⟩⟩

/-- C9: the claim states the `RetentionDuration` handed to the store equals
48 hours in the store's millisecond unit.  `cmds.go:558` sets
`int64(2 * 24 * time.Hour)`, which is 48 hours in *nanoseconds* — a
million times the value the claim (and the code's own comment, "2 days are
enough") calls for. -/
theorem retention_duration_unit_mismatch :
    retentionDurationSet = 172800000000000 ∧
    millisecondsIn48Hours = 172800000 ∧
    retentionDurationSet = 1000000 * millisecondsIn48Hours ∧
    retentionDurationSet ≠ millisecondsIn48Hours := by
  refine ⟨by decide, by decide, by decide, by decide⟩

end Telliot
